import Mathlib

/-!
# `github_user_ssh_signing_key`: a shallow embedding of the resource

Source: `github/resource_github_user_ssh_signing_key.go`.

The three CRUD functions of the resource are translated to pure functions over
an explicit `ResourceData` value.  The remote client (`go-github`) is a record
of functions given as a parameter; every remote call that is issued is recorded
in the outcome.  Go pointers are `Option`s and dereferencing `nil` is the
`Outcome.panicked` outcome.  Go's `int64`/`uint64` are `Int`/`Nat` with explicit
wrap-around.  Go strings are Lean strings, read through their character list.
-/

set_option linter.dupNamespace false

namespace GithubUserSshSigningKey

/-! ## Go standard library: `strconv` (base 10, 64 bits, as at the call sites) -/

/-- The sentinel errors `strconv.ErrSyntax` and `strconv.ErrRange`. -/
inductive NumErrKind where
  | ErrSyntax
  | ErrRange
  deriving DecidableEq, Repr

/-- Go's `strconv.NumError`. -/
structure NumError where
  Func : String
  Num : String
  Err : NumErrKind
  deriving DecidableEq, Repr

def syntaxError (fn str : String) : NumError := ⟨fn, str, NumErrKind.ErrSyntax⟩

def rangeError (fn str : String) : NumError := ⟨fn, str, NumErrKind.ErrRange⟩

/-- The constant `maxUint64`. -/
def maxUint64 : Nat := 2 ^ 64 - 1

/-- Go's `lower(c)`, that is `c | ('x' - 'X')`. -/
def lower (c : Nat) : Nat := c ||| 0x20

/-- The digit loop of `strconv.ParseUint(s, 10, 64)`: `n` is the `uint64`
accumulator, `s0` the whole argument (for error values).  `base == 10`, so
`base0` is false and an underscore falls to the `default` case. -/
def parseUintLoop (s0 : String) : List Char → Nat → Nat × Option NumError
  | [], n => (n, none)
  | c :: cs, n =>
    let b := c.toNat
    let dOpt : Option Nat :=
      if 48 ≤ b ∧ b ≤ 57 then some (b - 48)
      else if 97 ≤ lower b ∧ lower b ≤ 122 then some (lower b - 97 + 10)
      else none
    match dOpt with
    | none => (0, some (syntaxError "ParseUint" s0))
    | some d =>
      if d ≥ 10 then (0, some (syntaxError "ParseUint" s0))
      else if n ≥ maxUint64 / 10 + 1 then (maxUint64, some (rangeError "ParseUint" s0))
      else
        let n10 := n * 10 % 2 ^ 64
        let n1 := (n10 + d) % 2 ^ 64
        if n1 < n10 ∨ n1 > maxUint64 then (maxUint64, some (rangeError "ParseUint" s0))
        else parseUintLoop s0 cs n1

/-- Go's `strconv.ParseUint(s, 10, 64)`. -/
def ParseUint (s : String) : Nat × Option NumError :=
  if s.data = [] then (0, some (syntaxError "ParseUint" s))
  else parseUintLoop s s.data 0

/-- Go's conversion `int64(u)` of a `uint64`. -/
def int64OfUint64 (u : Nat) : Int :=
  if u % 2 ^ 64 < 2 ^ 63 then (u % 2 ^ 64 : Nat) else (u % 2 ^ 64 : Nat) - 2 ^ 64

/-- Wrap-around of an integer into the `int64` range. -/
def wrapInt64 (i : Int) : Int := int64OfUint64 (i % 2 ^ 64).toNat

/-- Go's `strconv.ParseInt(s, 10, 64)`; the pair is `(i, err)`. -/
def ParseInt (s : String) : Int × Option NumError :=
  match s.data with
  | [] => (0, some (syntaxError "ParseInt" s))
  | c :: cs =>
    let neg : Bool := c = '-'
    let rest : List Char := if c = '+' then cs else if c = '-' then cs else c :: cs
    let r := ParseUint (String.mk rest)
    let cutoff : Nat := 2 ^ 63
    let tail : Int × Option NumError :=
      if neg = false ∧ r.1 ≥ cutoff then ((cutoff : Int) - 1, some (rangeError "ParseInt" s))
      else if neg = true ∧ r.1 > cutoff then (-(cutoff : Int), some (rangeError "ParseInt" s))
      else
        let n := int64OfUint64 r.1
        (if neg then wrapInt64 (-n) else n, none)
    match r.2 with
    | some e =>
      if e.Err ≠ NumErrKind.ErrRange then (0, some { e with Func := "ParseInt", Num := s })
      else tail
    | none => tail

/-- The character of a decimal digit, `digits[d]` for `d < 10`. -/
def digitChar (d : Nat) : Char := Char.ofNat (48 + d)

/-- The digit loop of `formatBits` in base 10: the digits of `u` are put in
front of `acc`, least significant first.  A `uint64` has at most 20 digits,
which is the fuel `FormatInt` gives. -/
def formatBitsLoop : Nat → Nat → List Char → List Char
  | 0, _, acc => acc
  | fuel + 1, u, acc =>
    if u < 10 then digitChar u :: acc
    else formatBitsLoop fuel (u / 10) (digitChar (u % 10) :: acc)

/-- Go's `strconv.FormatInt(i, 10)` for an `int64` `i`: `formatBits` on
`uint64(i)`, negated (with wrap-around) when `i < 0`, then the sign.  The
table of small numbers and the two-digits-at-a-time loop of the library write
the same digits as this loop. -/
def FormatInt (i : Int) : String :=
  let u : Nat := (i % 2 ^ 64).toNat
  if i < 0 then String.mk ('-' :: formatBitsLoop 20 ((2 ^ 64 - u) % 2 ^ 64) [])
  else String.mk (formatBitsLoop 20 u [])

/-! ## Go standard library: `unicode`, `strings`, `net/textproto`, `net/http` -/

/-- Go's `unicode.IsSpace`: the Latin-1 cases and the `White_Space` table. -/
def IsSpace (r : Char) : Bool :=
  let n := r.toNat
  (9 ≤ n && n ≤ 13) || n = 32 || n = 0x85 || n = 0xA0 || n = 0x1680 ||
  (0x2000 ≤ n && n ≤ 0x200a) || n = 0x2028 || n = 0x2029 || n = 0x202f ||
  n = 0x205f || n = 0x3000

/-- Go's `strings.TrimLeftFunc(s, unicode.IsSpace)` on the runes of `s`. -/
def trimLeftSpace (cs : List Char) : List Char := cs.dropWhile IsSpace

/-- Go's `strings.TrimRightFunc(s, unicode.IsSpace)` on the runes of `s`. -/
def trimRightSpace (cs : List Char) : List Char := (cs.reverse.dropWhile IsSpace).reverse

/-- Go's `strings.TrimSpace`: all leading and trailing white space removed (the
ASCII fast path and the Unicode fallback compute the same string). -/
def TrimSpace (s : String) : String := String.mk (trimRightSpace (trimLeftSpace s.data))

/-- Go's `validHeaderFieldByte`: the token characters of RFC 7230. -/
def validHeaderFieldByte (b : Nat) : Bool :=
  (48 ≤ b && b ≤ 57) || (65 ≤ b && b ≤ 90) || (97 ≤ b && b ≤ 122) ||
  [33, 35, 36, 37, 38, 39, 42, 43, 45, 46, 94, 95, 96, 124, 126].contains b

/-- The rewriting loop of `canonicalMIMEHeaderKey`: a letter is upper-cased at
the start and after a hyphen, and lower-cased elsewhere. -/
def canonicalLoop : Bool → List Char → List Char
  | _, [] => []
  | upper, c :: cs =>
    let b := c.toNat
    let c1 : Char :=
      if upper ∧ 97 ≤ b ∧ b ≤ 122 then Char.ofNat (b - 32)
      else if ¬ upper ∧ 65 ≤ b ∧ b ≤ 90 then Char.ofNat (b + 32)
      else c
    c1 :: canonicalLoop (c = '-') cs

/-- Go's `textproto.CanonicalMIMEHeaderKey`: a key with a byte that is not a
token character is returned as it is. -/
def CanonicalMIMEHeaderKey (s : String) : String :=
  if s.data.all (fun c => validHeaderFieldByte c.toNat) then String.mk (canonicalLoop true s.data)
  else s

/-- Go's `http.Header`, a map from canonical keys to their values. -/
abbrev Header := List (String × List String)

/-- Go's `Header.Get`: the first value of the canonical form of `key`, or `""`. -/
def Header.Get (h : Header) (key : String) : String :=
  match h.lookup (CanonicalMIMEHeaderKey key) with
  | some (v :: _) => v
  | _ => ""

/-- The constants `http.StatusNotModified` and `http.StatusNotFound`. -/
def StatusNotModified : Int := 304

def StatusNotFound : Int := 404

/-! ## `go-github` -/

/-- The fields of `github.Response` (through its embedded `*http.Response`)
that the resource reads. -/
structure Response where
  StatusCode : Int
  Header : Header
  deriving DecidableEq, Repr

/-- The request body `github.Key`; the resource fills `Title` and `Key`. -/
structure Key where
  Title : Option String
  Key : Option String
  deriving DecidableEq, Repr

/-- The fields of `github.SSHSigningKey` the resource reads; each is a pointer. -/
structure SSHSigningKey where
  ID : Option Int
  Key : Option String
  Title : Option String
  deriving DecidableEq, Repr

/-- Go's `(*SSHSigningKey).GetTitle`, defined on a nil receiver too. -/
def GetTitle (k : Option SSHSigningKey) : String :=
  match k with
  | none => ""
  | some k => match k.Title with
    | none => ""
    | some t => t

/-- Go's `(*SSHSigningKey).GetKey`, defined on a nil receiver too. -/
def GetKey (k : Option SSHSigningKey) : String :=
  match k with
  | none => ""
  | some k => match k.Key with
    | none => ""
    | some t => t

/-- The values of Go's `error` interface met here, by dynamic type:
`*github.ErrorResponse` (its `Response` field is a pointer), `*strconv.NumError`,
and every other type, kept as its text. -/
inductive GoError where
  | ErrorResponse (Response : Option Response) (Message : String)
  | NumError (e : NumError)
  | Other (text : String)
  deriving DecidableEq, Repr

/-- The context keys `ctxEtag` and `ctxId` of the provider's transport. -/
inductive CtxKey where
  | ctxEtag
  | ctxId
  deriving DecidableEq, Repr

/-- The values a `context.Context` carries, most recent first. -/
structure Ctx where
  values : List (CtxKey × String)
  deriving DecidableEq, Repr

/-- Go's `context.WithValue`. -/
def Ctx.WithValue (ctx : Ctx) (k : CtxKey) (v : String) : Ctx := ⟨(k, v) :: ctx.values⟩

/-- The three methods of `client.Users` the resource calls.  Each returns what
the Go method returns: pointers (`none` is nil) and an `error` (`none` is nil). -/
structure Client where
  CreateSSHSigningKey : Ctx → Key → Option SSHSigningKey × Option Response × Option GoError
  GetSSHSigningKey : Ctx → Int → Option SSHSigningKey × Option Response × Option GoError
  DeleteSSHSigningKey : Ctx → Int → Option Response × Option GoError

/-- A remote call issued by the resource, with its arguments. -/
inductive RemoteCall where
  | create (ctx : Ctx) (key : Key)
  | get (ctx : Ctx) (id : Int)
  | delete (ctx : Ctx) (id : Int)
  deriving DecidableEq, Repr

/-! ## Terraform plugin SDK: `schema.ResourceData`, `diag`, `tflog` -/

/-- The state of `schema.ResourceData` for this schema: the identifier, the
three string fields and the new-resource mark. -/
structure ResourceData where
  id : String
  title : String
  key : String
  etag : String
  isNew : Bool
  deriving DecidableEq, Repr

def ResourceData.Id (d : ResourceData) : String := d.id

def ResourceData.SetId (d : ResourceData) (v : String) : ResourceData := { d with id := v }

def ResourceData.IsNewResource (d : ResourceData) : Bool := d.isNew

/-- Go's `d.Get(key)`: `none` is the nil interface of a key outside the schema. -/
def ResourceData.Get (d : ResourceData) (field : String) : Option String :=
  if field = "title" then some d.title
  else if field = "key" then some d.key
  else if field = "etag" then some d.etag
  else none

/-- Go's `d.Set(key, value)` with a string value: an error for a key outside
the schema. -/
def ResourceData.Set (d : ResourceData) (field : String) (v : String) :
    Except GoError ResourceData :=
  if field = "title" then .ok { d with title := v }
  else if field = "key" then .ok { d with key := v }
  else if field = "etag" then .ok { d with etag := v }
  else .error (GoError.Other ("Invalid address to set: " ++ field))

/-- An argument of a format string. -/
inductive FmtArg where
  | str (s : String)
  | err (e : GoError)
  deriving DecidableEq, Repr

/-- A `diag.Diagnostic` of severity `Error`: `FromErr e` has the text of `e`
as summary, `Errorf` the formatted string. -/
inductive Diagnostic where
  | FromErr (err : GoError)
  | Errorf (format : String) (args : List FmtArg)
  deriving DecidableEq, Repr

abbrev Diagnostics := List Diagnostic

/-- Go's `diag.FromErr`: nil for a nil error. -/
def diag.FromErr (err : Option GoError) : Diagnostics :=
  match err with
  | none => []
  | some e => [Diagnostic.FromErr e]

/-- Go's `diag.Errorf`. -/
def diag.Errorf (format : String) (args : List FmtArg) : Diagnostics :=
  [Diagnostic.Errorf format args]

/-- A record written by `tflog.Info`. -/
structure LogEntry where
  msg : String
  fields : List (String × String)
  deriving DecidableEq, Repr

/-- How a CRUD function ends: it returns diagnostics, with the state of `d` at
that point, the remote calls issued and the log records written; or the
goroutine panics on a nil dereference. -/
inductive Outcome where
  | returned (d : ResourceData) (diags : Diagnostics) (calls : List RemoteCall)
      (logs : List LogEntry)
  | panicked (calls : List RemoteCall)
  deriving DecidableEq, Repr

/-! ## The resource -/

/-- The `DiffSuppressFunc` of the `key` field. -/
def keyDiffSuppressFunc (_k oldV newV : String) (_d : ResourceData) : Bool :=
  let newTrimmed := TrimSpace newV
  oldV == newTrimmed

/-- The three `d.Set` calls that end `Create` and `Read`. -/
def setFields (d : ResourceData) (resp : Option Response) (key : Option SSHSigningKey)
    (calls : List RemoteCall) : Outcome :=
  match resp with
  | none => Outcome.panicked calls
  | some r =>
    match d.Set "etag" (r.Header.Get "ETag") with
    | .error e => Outcome.returned d (diag.FromErr (some e)) calls []
    | .ok d1 =>
      match d1.Set "title" (GetTitle key) with
      | .error e => Outcome.returned d1 (diag.FromErr (some e)) calls []
      | .ok d2 =>
        match d2.Set "key" (GetKey key) with
        | .error e => Outcome.returned d2 (diag.FromErr (some e)) calls []
        | .ok d3 => Outcome.returned d3 [] calls []

def resourceGithubUserSshSigningKeyCreate (ctx : Ctx) (d : ResourceData) (client : Client) :
    Outcome :=
  match d.Get "title", d.Get "key" with
  | some title, some key =>
    let body : Key := { Title := some title, Key := some key }
    let calls := [RemoteCall.create ctx body]
    match client.CreateSSHSigningKey ctx body with
    | (_, _, some err) => Outcome.returned d (diag.FromErr (some err)) calls []
    | (userKey, resp, none) =>
      match userKey with
      | none => Outcome.panicked calls
      | some uk =>
        match uk.ID with
        | none => Outcome.panicked calls
        | some id => setFields (d.SetId (FormatInt id)) resp userKey calls
  | _, _ => Outcome.panicked []

def resourceGithubUserSshSigningKeyRead (ctx : Ctx) (d : ResourceData) (client : Client) :
    Outcome :=
  match ParseInt d.Id with
  | (_, some err) =>
    Outcome.returned d
      (diag.Errorf "failed to convert ID %s: %v" [FmtArg.str d.Id, FmtArg.err (GoError.NumError err)])
      [] []
  | (id, none) =>
    let ctxOpt : Option Ctx :=
      if d.IsNewResource = false then (d.Get "etag").map (ctx.WithValue CtxKey.ctxEtag)
      else some ctx
    match ctxOpt with
    | none => Outcome.panicked []
    | some ctx1 =>
      let calls := [RemoteCall.get ctx1 id]
      match client.GetSSHSigningKey ctx1 id with
      | (key, resp, err) =>
        let early : Option Outcome :=
          match err with
          | some (GoError.ErrorResponse ghResp _) =>
            match ghResp with
            | none => some (Outcome.panicked calls)
            | some r =>
              if r.StatusCode = StatusNotModified then some (Outcome.returned d [] calls [])
              else if r.StatusCode = StatusNotFound then
                some (Outcome.returned (d.SetId "") [] calls
                  [{ msg := "Removing user SSH key " ++ d.Id ++
                        " from state because it no longer exists in GitHub",
                     fields := [("ssh_signing_key_id", d.Id)] }])
              else none
          | _ => none
        match early with
        | some o => o
        | none => setFields d resp key calls

def resourceGithubUserSshSigningKeyDelete (ctx : Ctx) (d : ResourceData) (client : Client) :
    Outcome :=
  match ParseInt d.Id with
  | (_, some err) =>
    Outcome.returned d
      (diag.Errorf "failed to convert ID %s: %v" [FmtArg.str d.Id, FmtArg.err (GoError.NumError err)])
      [] []
  | (id, none) =>
    let ctx1 := ctx.WithValue CtxKey.ctxId d.Id
    let calls := [RemoteCall.delete ctx1 id]
    match client.DeleteSSHSigningKey ctx1 id with
    | (resp, err) =>
      match resp with
      | none => Outcome.panicked calls
      | some r =>
        if r.StatusCode = StatusNotFound then Outcome.returned d [] calls []
        else Outcome.returned d (diag.FromErr err) calls []

/-- The context `Read` gives to the remote get call: the stored `etag` is
added unless the resource is new. -/
def readCtx (ctx : Ctx) (d : ResourceData) : Ctx :=
  if d.isNew = false then ctx.WithValue CtxKey.ctxEtag d.etag else ctx

/-- The value of a big-endian list of decimal digits that continues `n`. -/
def decimalValue (n : Nat) (ds : List Nat) : Nat := ds.foldl (fun a d => a * 10 + d) n

/-! ## Concrete remote services, for evaluating the resource -/

/-- A client whose three methods give the same reply at every argument. -/
def constClient (c g : Option SSHSigningKey × Option Response × Option GoError)
    (x : Option Response × Option GoError) : Client :=
  { CreateSSHSigningKey := fun _ _ => c
    GetSSHSigningKey := fun _ _ => g
    DeleteSSHSigningKey := fun _ _ => x }

/-- A service that assigns id 555, trims the key it is given, and afterwards
serves that record under id 555 and nothing else. -/
def trimmingClient : Client :=
  { CreateSSHSigningKey := fun _ k =>
      (some { ID := some 555, Key := k.Key.map TrimSpace, Title := k.Title },
       some { StatusCode := 201, Header := [("Etag", ["etag-1"])] }, none)
    GetSSHSigningKey := fun _ id =>
      if id = 555 then
        (some { ID := some 555, Key := some "ssh-ed25519 AAAAC3", Title := some "laptop-2024" },
         some { StatusCode := 200, Header := [("Etag", ["etag-2"])] }, none)
      else
        (none, some { StatusCode := 404, Header := [] },
         some (GoError.ErrorResponse (some { StatusCode := 404, Header := [] }) "Not Found"))
    DeleteSSHSigningKey := fun _ id =>
      if id = 555 then (some { StatusCode := 204, Header := [] }, none)
      else
        (some { StatusCode := 404, Header := [] },
         some (GoError.ErrorResponse (some { StatusCode := 404, Header := [] }) "Not Found")) }

/-- The declared configuration of the end-to-end example, before `Create`. -/
def laptopConfig : ResourceData :=
  { id := "", title := "laptop-2024", key := "ssh-ed25519 AAAAC3\n", etag := "", isNew := true }

/-- An established resource with id 555. -/
def laptopState : ResourceData :=
  { id := "555", title := "laptop-2024", key := "ssh-ed25519 AAAAC3", etag := "etag-1",
    isNew := false }

/-- The background context. -/
def background : Ctx := { values := [] }

/-! ## Create -/

/-- Lean's decimal digit character is the one `formatBits` writes. -/
theorem digitChar_eq (d : Nat) (hd : d < 10) : Nat.digitChar d = digitChar d := by
  interval_cases d <;> rfl

/-- With enough fuel on both sides, `formatBitsLoop` writes the digits of Lean's
decimal rendering of a natural number. -/
theorem formatBitsLoop_eq_toDigitsCore (f1 f2 u : Nat) (acc : List Char)
    (h1 : u < 10 ^ (f1 + 1)) (h2 : u < f2 + 1) :
    formatBitsLoop (f1 + 1) u acc = Nat.toDigitsCore 10 (f2 + 1) u acc := by
  induction f1 generalizing f2 u acc with
  | zero =>
    have h : u < 10 := by simpa using h1
    have hq : u / 10 = 0 := by omega
    have hm : u % 10 = u := by omega
    simp [formatBitsLoop, Nat.toDigitsCore, h, hq, hm, digitChar_eq u h]
  | succ f1 ih =>
    by_cases h : u < 10
    · have hq : u / 10 = 0 := by omega
      have hm : u % 10 = u := by omega
      simp [formatBitsLoop, Nat.toDigitsCore, h, hq, hm, digitChar_eq u h]
    · have hq : u / 10 ≠ 0 := by omega
      obtain ⟨f2, rfl⟩ : ∃ k, f2 = k + 1 := ⟨f2 - 1, by omega⟩
      have hlt : u / 10 < 10 ^ (f1 + 1) := by
        rw [Nat.div_lt_iff_lt_mul (by norm_num)]
        rw [pow_succ] at h1
        exact h1
      have := ih f2 (u / 10) (digitChar (u % 10) :: acc) hlt (by omega)
      rw [formatBitsLoop, if_neg h, this]
      conv_rhs => rw [Nat.toDigitsCore]
      simp only [hq, if_false]
      rw [digitChar_eq (u % 10) (by omega)]

/-- For an `int64`, `FormatInt` is the usual decimal numeral: a minus sign for a
negative number, then the digits without leading zeros. -/
theorem formatInt_eq_toString (n : Int) (hlo : -2 ^ 63 ≤ n) (hhi : n < 2 ^ 63) :
    FormatInt n = toString n := by
  cases n with
  | ofNat m =>
    have hm : (m : Int) < 2 ^ 63 := hhi
    have hu : ((Int.ofNat m) % 2 ^ 64).toNat = m := by
      simp only [Int.ofNat_eq_coe]; omega
    have hnn : ¬ (Int.ofNat m < 0) := by simp
    simp only [FormatInt, hnn, if_false, hu]
    show _ = Nat.repr m
    rw [Nat.repr, Nat.toDigits, formatBitsLoop_eq_toDigitsCore 19 m m [] (by omega) (by omega)]
    rfl
  | negSucc m =>
    have hm : -2 ^ 63 ≤ Int.negSucc m := hlo
    have hu : (2 ^ 64 - ((Int.negSucc m) % 2 ^ 64).toNat) % 2 ^ 64 = m + 1 := by
      have := Int.negSucc_eq m
      omega
    have hneg : Int.negSucc m < 0 := Int.negSucc_lt_zero m
    simp only [FormatInt, hneg, if_true, hu]
    show _ = "-" ++ Nat.repr (m + 1)
    have hm1 : m + 1 < 10 ^ 20 := by
      have := Int.negSucc_eq m
      omega
    rw [Nat.repr, Nat.toDigits, formatBitsLoop_eq_toDigitsCore 19 (m + 1) (m + 1) [] hm1 (by omega)]
    rfl

/-- What `Create` does after a successful remote call whose record has an id. -/
theorem create_of_success (ctx : Ctx) (d : ResourceData) (client : Client)
    (record : SSHSigningKey) (resp : Response) (n : Int)
    (hcall : client.CreateSSHSigningKey ctx { Title := some d.title, Key := some d.key } =
      (some record, some resp, none))
    (hid : record.ID = some n) :
    resourceGithubUserSshSigningKeyCreate ctx d client =
      Outcome.returned
        { id := FormatInt n
          title := record.Title.getD ""
          key := record.Key.getD ""
          etag := resp.Header.Get "ETag"
          isNew := d.isNew }
        [] [RemoteCall.create ctx { Title := some d.title, Key := some d.key }] [] := by
  obtain ⟨rid, rkey, rtitle⟩ := record
  simp only at hid
  subst hid
  simp [resourceGithubUserSshSigningKeyCreate, ResourceData.Get]
  rw [hcall]
  cases rkey <;> cases rtitle <;>
    simp [setFields, ResourceData.Set, ResourceData.SetId, GetTitle, GetKey]

/-- C1: a successful remote create whose record carries the numeric id `n`
(an `int64`) makes `Create` return no diagnostics, with the identifier the
base-10 string of `n`, `etag` the `ETag` header of the response, and `title`
and `key` the values of the returned record (`""` when the record omits them),
whatever the supplied values were. -/
theorem create_success_stores_returned_record (ctx : Ctx) (d : ResourceData) (client : Client)
    (record : SSHSigningKey) (resp : Response) (n : Int)
    (hlo : -2 ^ 63 ≤ n) (hhi : n < 2 ^ 63)
    (hcall : client.CreateSSHSigningKey ctx { Title := some d.title, Key := some d.key } =
      (some record, some resp, none))
    (hid : record.ID = some n) :
    resourceGithubUserSshSigningKeyCreate ctx d client =
      Outcome.returned
        { id := FormatInt n
          title := record.Title.getD ""
          key := record.Key.getD ""
          etag := resp.Header.Get "ETag"
          isNew := d.isNew }
        [] [RemoteCall.create ctx { Title := some d.title, Key := some d.key }] [] ∧
    FormatInt n = toString n :=
  ⟨create_of_success ctx d client record resp n hcall hid, formatInt_eq_toString n hlo hhi⟩

theorem create_success_stores_returned_record_witness :
    (-2 ^ 63 ≤ (555 : Int) ∧ (555 : Int) < 2 ^ 63) ∧
    trimmingClient.CreateSSHSigningKey background
        { Title := some laptopConfig.title, Key := some laptopConfig.key } =
      (some { ID := some 555, Key := some "ssh-ed25519 AAAAC3", Title := some "laptop-2024" },
       some { StatusCode := 201, Header := [("Etag", ["etag-1"])] }, none) ∧
    resourceGithubUserSshSigningKeyCreate background laptopConfig trimmingClient =
      Outcome.returned
        { id := FormatInt 555
          title := (some "laptop-2024" : Option String).getD ""
          key := (some "ssh-ed25519 AAAAC3" : Option String).getD ""
          etag := Header.Get [("Etag", ["etag-1"])] "ETag"
          isNew := true }
        [] [RemoteCall.create background
          { Title := some laptopConfig.title, Key := some laptopConfig.key }] [] ∧
    FormatInt 555 = toString (555 : Int) :=
  ⟨by decide, by decide,
   create_success_stores_returned_record background laptopConfig trimmingClient
     { ID := some 555, Key := some "ssh-ed25519 AAAAC3", Title := some "laptop-2024" }
     { StatusCode := 201, Header := [("Etag", ["etag-1"])] } 555 (by decide) (by decide)
     (by decide) rfl⟩

/-- C2: when the remote create call returns an error, `Create` returns the
diagnostic of exactly that error and the local state is as it was. -/
theorem create_error_leaves_state (ctx : Ctx) (d : ResourceData) (client : Client)
    (userKey : Option SSHSigningKey) (resp : Option Response) (err : GoError)
    (hcall : client.CreateSSHSigningKey ctx { Title := some d.title, Key := some d.key } =
      (userKey, resp, some err)) :
    resourceGithubUserSshSigningKeyCreate ctx d client =
      Outcome.returned d [Diagnostic.FromErr err]
        [RemoteCall.create ctx { Title := some d.title, Key := some d.key }] [] := by
  simp [resourceGithubUserSshSigningKeyCreate, ResourceData.Get]
  rw [hcall]
  simp [diag.FromErr]

theorem create_error_leaves_state_witness :
    (constClient (none, none, some (GoError.Other "dial tcp: connection refused"))
        (none, none, none) (none, none)).CreateSSHSigningKey background
        { Title := some laptopConfig.title, Key := some laptopConfig.key } =
      (none, none, some (GoError.Other "dial tcp: connection refused")) ∧
    resourceGithubUserSshSigningKeyCreate background laptopConfig
        (constClient (none, none, some (GoError.Other "dial tcp: connection refused"))
          (none, none, none) (none, none)) =
      Outcome.returned laptopConfig
        [Diagnostic.FromErr (GoError.Other "dial tcp: connection refused")]
        [RemoteCall.create background
          { Title := some laptopConfig.title, Key := some laptopConfig.key }] [] :=
  ⟨rfl, create_error_leaves_state background laptopConfig _ none none _ rfl⟩

/-! ## Read -/

/-- `Read` up to the remote call, for an identifier that parses. -/
theorem read_of_parse (ctx : Ctx) (d : ResourceData) (client : Client) (id : Int)
    (hparse : ParseInt d.id = (id, none)) :
    resourceGithubUserSshSigningKeyRead ctx d client =
      match client.GetSSHSigningKey (readCtx ctx d) id with
      | (key, resp, err) =>
        match (match err with
          | some (GoError.ErrorResponse ghResp _) =>
            match ghResp with
            | none => some (Outcome.panicked [RemoteCall.get (readCtx ctx d) id])
            | some r =>
              if r.StatusCode = StatusNotModified then
                some (Outcome.returned d [] [RemoteCall.get (readCtx ctx d) id] [])
              else if r.StatusCode = StatusNotFound then
                some (Outcome.returned (d.SetId "") [] [RemoteCall.get (readCtx ctx d) id]
                  [{ msg := "Removing user SSH key " ++ d.Id ++
                        " from state because it no longer exists in GitHub",
                     fields := [("ssh_signing_key_id", d.Id)] }])
              else none
          | _ => none : Option Outcome) with
        | some o => o
        | none => setFields d resp key [RemoteCall.get (readCtx ctx d) id] := by
  simp only [resourceGithubUserSshSigningKeyRead, ResourceData.Id, hparse, readCtx,
    ResourceData.IsNewResource, ResourceData.Get]
  cases d.isNew <;> simp

/-- `Delete` up to the remote call, for an identifier that parses. -/
theorem delete_of_parse (ctx : Ctx) (d : ResourceData) (client : Client) (id : Int)
    (hparse : ParseInt d.id = (id, none)) :
    resourceGithubUserSshSigningKeyDelete ctx d client =
      match client.DeleteSSHSigningKey (ctx.WithValue CtxKey.ctxId d.id) id with
      | (resp, err) =>
        match resp with
        | none => Outcome.panicked [RemoteCall.delete (ctx.WithValue CtxKey.ctxId d.id) id]
        | some r =>
          if r.StatusCode = StatusNotFound then
            Outcome.returned d [] [RemoteCall.delete (ctx.WithValue CtxKey.ctxId d.id) id] []
          else
            Outcome.returned d (diag.FromErr err)
              [RemoteCall.delete (ctx.WithValue CtxKey.ctxId d.id) id] [] := by
  simp only [resourceGithubUserSshSigningKeyDelete, ResourceData.Id, hparse]

/-- C3: for an identifier that parses, a remote get that reports "not
modified" (an error response of status 304) makes `Read` return no diagnostics
and leave identifier, etag, title and key as they were. -/
theorem read_not_modified_keeps_state (ctx : Ctx) (d : ResourceData) (client : Client)
    (id : Int) (key : Option SSHSigningKey) (resp : Option Response) (r : Response)
    (msg : String)
    (hparse : ParseInt d.id = (id, none))
    (hget : client.GetSSHSigningKey (readCtx ctx d) id =
      (key, resp, some (GoError.ErrorResponse (some r) msg)))
    (hstatus : r.StatusCode = 304) :
    resourceGithubUserSshSigningKeyRead ctx d client =
      Outcome.returned d [] [RemoteCall.get (readCtx ctx d) id] [] := by
  rw [read_of_parse ctx d client id hparse, hget]
  simp [hstatus, StatusNotModified]

/-- C4: for an identifier that parses, a remote get that reports "not found"
(an error response of status 404) makes `Read` set the identifier to `""` and
return no diagnostics. -/
theorem read_not_found_clears_id (ctx : Ctx) (d : ResourceData) (client : Client)
    (id : Int) (key : Option SSHSigningKey) (resp : Option Response) (r : Response)
    (msg : String)
    (hparse : ParseInt d.id = (id, none))
    (hget : client.GetSSHSigningKey (readCtx ctx d) id =
      (key, resp, some (GoError.ErrorResponse (some r) msg)))
    (hstatus : r.StatusCode = 404) :
    resourceGithubUserSshSigningKeyRead ctx d client =
      Outcome.returned { d with id := "" } [] [RemoteCall.get (readCtx ctx d) id]
        [{ msg := "Removing user SSH key " ++ d.id ++
              " from state because it no longer exists in GitHub",
           fields := [("ssh_signing_key_id", d.id)] }] := by
  rw [read_of_parse ctx d client id hparse, hget]
  simp [hstatus, StatusNotModified, StatusNotFound, ResourceData.SetId, ResourceData.Id]

theorem read_not_modified_keeps_state_witness :
    ParseInt laptopState.id = (555, none) ∧
    resourceGithubUserSshSigningKeyRead background laptopState
        (constClient (none, none, none)
          (none, some { StatusCode := 304, Header := [] },
           some (GoError.ErrorResponse (some { StatusCode := 304, Header := [] }) ""))
          (none, none)) =
      Outcome.returned laptopState [] [RemoteCall.get (readCtx background laptopState) 555] [] :=
  ⟨by decide,
   read_not_modified_keeps_state background laptopState _ 555 none
     (some { StatusCode := 304, Header := [] }) { StatusCode := 304, Header := [] } ""
     (by decide) rfl rfl⟩

theorem read_not_found_clears_id_witness :
    ParseInt laptopState.id = (555, none) ∧
    resourceGithubUserSshSigningKeyRead background laptopState
        (constClient (none, none, none)
          (none, some { StatusCode := 404, Header := [] },
           some (GoError.ErrorResponse (some { StatusCode := 404, Header := [] }) "Not Found"))
          (none, none)) =
      Outcome.returned { laptopState with id := "" } []
        [RemoteCall.get (readCtx background laptopState) 555]
        [{ msg := "Removing user SSH key " ++ laptopState.id ++
              " from state because it no longer exists in GitHub",
           fields := [("ssh_signing_key_id", laptopState.id)] }] :=
  ⟨by decide,
   read_not_found_clears_id background laptopState _ 555 none
     (some { StatusCode := 404, Header := [] }) { StatusCode := 404, Header := [] } "Not Found"
     (by decide) rfl rfl⟩

/-- C9, at a failing input: the remote get answers an established resource with
an error response of status 500 (no record, a response with an `ETag` header).
`Read` returns no diagnostics and overwrites `etag` with the header value and
`title` and `key` with `""`; and when the remote get fails with no response at
all, `Read` panics instead of returning a diagnostic. -/
theorem read_other_error_is_swallowed :
    resourceGithubUserSshSigningKeyRead background laptopState
        (constClient (none, none, none)
          (none, some { StatusCode := 500, Header := [("Etag", ["etag-500"])] },
           some (GoError.ErrorResponse
             (some { StatusCode := 500, Header := [("Etag", ["etag-500"])] }) "Server Error"))
          (none, none)) =
      Outcome.returned { id := "555", title := "", key := "", etag := "etag-500", isNew := false }
        [] [RemoteCall.get (background.WithValue CtxKey.ctxEtag "etag-1") 555] [] ∧
    resourceGithubUserSshSigningKeyRead background laptopState
        (constClient (none, none, none)
          (none, none, some (GoError.Other "dial tcp: connection refused")) (none, none)) =
      Outcome.panicked [RemoteCall.get (background.WithValue CtxKey.ctxEtag "etag-1") 555] := by
  constructor <;> decide

/-! ## Delete -/

/-- C5: for an identifier that parses, a remote delete whose response has
status 404 makes `Delete` return no diagnostics, whatever error comes with the
response. -/
theorem delete_not_found_succeeds (ctx : Ctx) (d : ResourceData) (client : Client)
    (id : Int) (r : Response) (err : Option GoError)
    (hparse : ParseInt d.id = (id, none))
    (hdel : client.DeleteSSHSigningKey (ctx.WithValue CtxKey.ctxId d.id) id = (some r, err))
    (hstatus : r.StatusCode = 404) :
    resourceGithubUserSshSigningKeyDelete ctx d client =
      Outcome.returned d [] [RemoteCall.delete (ctx.WithValue CtxKey.ctxId d.id) id] [] := by
  rw [delete_of_parse ctx d client id hparse, hdel]
  simp [hstatus, StatusNotFound]

theorem delete_not_found_succeeds_witness :
    ParseInt laptopState.id = (555, none) ∧
    resourceGithubUserSshSigningKeyDelete background laptopState
        (constClient (none, none, none) (none, none, none)
          (some { StatusCode := 404, Header := [] },
           some (GoError.ErrorResponse (some { StatusCode := 404, Header := [] }) "Not Found"))) =
      Outcome.returned laptopState []
        [RemoteCall.delete (background.WithValue CtxKey.ctxId laptopState.id) 555] [] :=
  ⟨by decide,
   delete_not_found_succeeds background laptopState _ 555 { StatusCode := 404, Header := [] }
     (some (GoError.ErrorResponse (some { StatusCode := 404, Header := [] }) "Not Found"))
     (by decide) rfl rfl⟩

/-- With a response object whose status is not 404, `Delete` returns the
diagnostics of the remote call's error: none for a nil error. -/
theorem delete_with_response (ctx : Ctx) (d : ResourceData) (client : Client)
    (id : Int) (r : Response) (err : Option GoError)
    (hparse : ParseInt d.id = (id, none))
    (hdel : client.DeleteSSHSigningKey (ctx.WithValue CtxKey.ctxId d.id) id = (some r, err))
    (hstatus : r.StatusCode ≠ 404) :
    resourceGithubUserSshSigningKeyDelete ctx d client =
      Outcome.returned d (diag.FromErr err)
        [RemoteCall.delete (ctx.WithValue CtxKey.ctxId d.id) id] [] := by
  rw [delete_of_parse ctx d client id hparse, hdel]
  simp [hstatus, StatusNotFound]

/-- C10, at a failing input: the remote delete fails with a transport error
and no response object.  `Delete` reads `resp.StatusCode` before it looks at
the error, and panics on the nil response instead of returning the diagnostic
of the error. -/
theorem delete_without_response_panics :
    resourceGithubUserSshSigningKeyDelete background laptopState
        (constClient (none, none, none) (none, none, none)
          (none, some (GoError.Other "dial tcp: connection refused"))) =
      Outcome.panicked [RemoteCall.delete (background.WithValue CtxKey.ctxId "555") 555] := by
  decide

/-! ## Identifiers that do not parse -/

/-- C6: for an identifier that `ParseInt` rejects, `Read` and `Delete` both
return the error diagnostic of the conversion, issue no remote call and leave
the local state as it was. -/
theorem invalid_identifier_rejected (ctx : Ctx) (d : ResourceData) (client : Client)
    (h : (ParseInt d.id).2 ≠ none) :
    ∃ e : NumError, (ParseInt d.id).2 = some e ∧
      resourceGithubUserSshSigningKeyRead ctx d client =
        Outcome.returned d
          [Diagnostic.Errorf "failed to convert ID %s: %v"
            [FmtArg.str d.id, FmtArg.err (GoError.NumError e)]] [] [] ∧
      resourceGithubUserSshSigningKeyDelete ctx d client =
        Outcome.returned d
          [Diagnostic.Errorf "failed to convert ID %s: %v"
            [FmtArg.str d.id, FmtArg.err (GoError.NumError e)]] [] [] := by
  obtain ⟨e, he⟩ := Option.ne_none_iff_exists'.mp h
  refine ⟨e, he, ?_, ?_⟩
  · unfold resourceGithubUserSshSigningKeyRead
    rcases hp : ParseInt d.id with ⟨v, o⟩
    rw [hp] at he
    simp only at he
    subst he
    simp [ResourceData.Id, hp, diag.Errorf]
  · unfold resourceGithubUserSshSigningKeyDelete
    rcases hp : ParseInt d.id with ⟨v, o⟩
    rw [hp] at he
    simp only at he
    subst he
    simp [ResourceData.Id, hp, diag.Errorf]

theorem invalid_identifier_rejected_witness :
    (ParseInt ({ laptopState with id := "abc" } : ResourceData).id).2 ≠ none ∧
    resourceGithubUserSshSigningKeyRead background { laptopState with id := "abc" }
        trimmingClient =
      Outcome.returned { laptopState with id := "abc" }
        [Diagnostic.Errorf "failed to convert ID %s: %v"
          [FmtArg.str "abc",
           FmtArg.err (GoError.NumError ⟨"ParseInt", "abc", NumErrKind.ErrSyntax⟩)]] [] [] ∧
    resourceGithubUserSshSigningKeyDelete background { laptopState with id := "abc" }
        trimmingClient =
      Outcome.returned { laptopState with id := "abc" }
        [Diagnostic.Errorf "failed to convert ID %s: %v"
          [FmtArg.str "abc",
           FmtArg.err (GoError.NumError ⟨"ParseInt", "abc", NumErrKind.ErrSyntax⟩)]] [] [] := by
  refine ⟨by decide, ?_⟩
  obtain ⟨e, he, hr, hd⟩ :=
    invalid_identifier_rejected background { laptopState with id := "abc" } trimmingClient
      (by decide)
  have hp : (ParseInt ({ laptopState with id := "abc" } : ResourceData).id).2 =
      some ⟨"ParseInt", "abc", NumErrKind.ErrSyntax⟩ := by decide
  rw [hp] at he
  cases he
  exact ⟨hr, hd⟩

/-- The identifiers the specification gives as examples are rejected by
`ParseInt`: letters and the empty string as syntax errors, numerals outside
the `int64` range as range errors. -/
theorem parseInt_rejects_examples :
    (ParseInt "abc").2 = some ⟨"ParseInt", "abc", NumErrKind.ErrSyntax⟩ ∧
    (ParseInt "").2 = some ⟨"ParseInt", "", NumErrKind.ErrSyntax⟩ ∧
    (ParseInt "9223372036854775808").2 =
      some ⟨"ParseInt", "9223372036854775808", NumErrKind.ErrRange⟩ ∧
    (ParseInt "-9223372036854775809").2 =
      some ⟨"ParseInt", "-9223372036854775809", NumErrKind.ErrRange⟩ ∧
    (ParseInt "99999999999999999999").2 =
      some ⟨"ParseInt", "99999999999999999999", NumErrKind.ErrRange⟩ ∧
    (ParseInt "5_5").2 = some ⟨"ParseInt", "5_5", NumErrKind.ErrSyntax⟩ := by
  decide

/-! ## The `DiffSuppressFunc` of `key` -/

/-- C7, as stated, fails: a stored value with a trailing newline and a declared
value without it are equal once both are trimmed, and the function returns
`false`, since only the declared value is trimmed. -/
theorem keyDiffSuppressFunc_untrimmed_old :
    TrimSpace "ssh-ed25519 AAAA...\n" = TrimSpace "ssh-ed25519 AAAA..." ∧
    keyDiffSuppressFunc "key" "ssh-ed25519 AAAA...\n" "ssh-ed25519 AAAA..." laptopState =
      false := by
  decide

/-- C7, amended: for a stored value `old` and a declared value `new` that are
equal once surrounding white space is removed from each, the function returns
`true` exactly when `old` itself has no surrounding white space. -/
theorem keyDiffSuppressFunc_iff (k oldV newV : String) (d : ResourceData)
    (h : TrimSpace oldV = TrimSpace newV) :
    keyDiffSuppressFunc k oldV newV d = true ↔ TrimSpace oldV = oldV := by
  simp only [keyDiffSuppressFunc, beq_iff_eq, ← h]
  exact eq_comm

theorem keyDiffSuppressFunc_iff_witness :
    TrimSpace "ssh-ed25519 AAAA..." = TrimSpace "ssh-ed25519 AAAA...\n" ∧
    keyDiffSuppressFunc "key" "ssh-ed25519 AAAA..." "ssh-ed25519 AAAA...\n" laptopState =
      true :=
  ⟨by decide,
   (keyDiffSuppressFunc_iff "key" "ssh-ed25519 AAAA..." "ssh-ed25519 AAAA...\n" laptopState
     (by decide)).mpr (by decide)⟩

/-! ## `FormatInt` and `ParseInt` are inverse on `int64` -/

theorem decimalValue_ge (ds : List Nat) (n : Nat) : n ≤ decimalValue n ds := by
  induction ds generalizing n with
  | nil => simp [decimalValue]
  | cons d ds ih =>
    have := ih (n * 10 + d)
    simp only [decimalValue, List.foldl_cons] at this ⊢
    omega

theorem digitChar_toNat (d : Nat) (hd : d < 10) : (digitChar d).toNat = 48 + d := by
  interval_cases d <;> rfl

theorem parseUintLoop_digits (s0 : String) (ds : List Nat) (n : Nat)
    (hds : ∀ d ∈ ds, d < 10) (hval : decimalValue n ds < 2 ^ 64) :
    parseUintLoop s0 (ds.map digitChar) n = (decimalValue n ds, none) := by
  induction ds generalizing n with
  | nil => simp [parseUintLoop, decimalValue]
  | cons d ds ih =>
    have hd : d < 10 := hds d (List.mem_cons_self _ _)
    have hval1 : decimalValue (n * 10 + d) ds < 2 ^ 64 := by
      simpa [decimalValue] using hval
    have hn : n * 10 + d < 2 ^ 64 := lt_of_le_of_lt (decimalValue_ge ds _) hval1
    have ih1 := ih (n * 10 + d) (fun x hx => hds x (List.mem_cons_of_mem _ hx)) hval1
    have h10 : n * 10 % 2 ^ 64 = n * 10 := Nat.mod_eq_of_lt (by omega)
    have h1 : (n * 10 + d) % 2 ^ 64 = n * 10 + d := Nat.mod_eq_of_lt hn
    have hcut : ¬ n ≥ maxUint64 / 10 + 1 := by
      simp only [maxUint64]
      omega
    have hmax : ¬ (n * 10 + d < n * 10 ∨ n * 10 + d > maxUint64) := by
      simp only [maxUint64]
      omega
    have hdig : 48 ≤ 48 + d ∧ 48 + d ≤ 57 := by omega
    simp only [List.map_cons, parseUintLoop, digitChar_toNat d hd, hdig, and_self, if_true,
      Nat.add_sub_cancel_left, ge_iff_le, Nat.not_le.mpr hd, if_false, h10, h1]
    rw [if_neg hcut, if_neg hmax]
    simpa [decimalValue] using ih1

theorem decimalValue_append (n : Nat) (ds : List Nat) (d : Nat) :
    decimalValue n (ds ++ [d]) = decimalValue n ds * 10 + d := by
  simp [decimalValue, List.foldl_append]

/-- With enough fuel, `formatBitsLoop` writes a non-empty list of decimal
digits whose value is `u`. -/
theorem formatBitsLoop_digits (fuel u : Nat) (acc : List Char) (hu : u < 10 ^ (fuel + 1)) :
    ∃ ds : List Nat, ds ≠ [] ∧ (∀ d ∈ ds, d < 10) ∧
      formatBitsLoop (fuel + 1) u acc = ds.map digitChar ++ acc ∧
      decimalValue 0 ds = u := by
  induction fuel generalizing u acc with
  | zero =>
    have h : u < 10 := by simpa using hu
    exact ⟨[u], by simp, by simpa using h, by simp [formatBitsLoop, h], by simp [decimalValue]⟩
  | succ fuel ih =>
    by_cases h : u < 10
    · exact ⟨[u], by simp, by simpa using h, by simp [formatBitsLoop, h], by simp [decimalValue]⟩
    · have hq : u / 10 < 10 ^ (fuel + 1) := by
        rw [Nat.div_lt_iff_lt_mul (by norm_num)]
        rw [pow_succ] at hu
        exact hu
      obtain ⟨ds, -, hlt, hfmt, hval⟩ := ih (u / 10) (digitChar (u % 10) :: acc) hq
      refine ⟨ds ++ [u % 10], by simp, ?_, ?_, ?_⟩
      · intro d hd
        rcases List.mem_append.mp hd with hd | hd
        · exact hlt d hd
        · have : d = u % 10 := by simpa using hd
          omega
      · rw [formatBitsLoop, if_neg h, hfmt]
        simp
      · rw [decimalValue_append, hval]
        omega

/-- `ParseUint` reads back what `formatBitsLoop` writes for a `uint64`. -/
theorem parseUint_formatBits (u : Nat) (hu : u < 2 ^ 64) :
    ∃ c cs, formatBitsLoop 20 u [] = c :: cs ∧ c ≠ '+' ∧ c ≠ '-' ∧
      ParseUint (String.mk (c :: cs)) = (u, none) := by
  obtain ⟨ds, hne, hlt, hfmt, hval⟩ := formatBitsLoop_digits 19 u [] (by omega)
  rw [List.append_nil] at hfmt
  obtain ⟨d, ds1, rfl⟩ := List.exists_cons_of_ne_nil hne
  have hd : d < 10 := hlt d (List.mem_cons_self _ _)
  refine ⟨digitChar d, ds1.map digitChar, by simpa using hfmt, ?_, ?_, ?_⟩
  · intro hc
    have := digitChar_toNat d hd
    rw [hc] at this
    have h2 : ('+' : Char).toNat = 43 := rfl
    omega
  · intro hc
    have := digitChar_toNat d hd
    rw [hc] at this
    have h2 : ('-' : Char).toNat = 45 := rfl
    omega
  · have hp := parseUintLoop_digits (String.mk (digitChar d :: ds1.map digitChar)) (d :: ds1) 0
      hlt (by rw [hval]; exact hu)
    rw [hval] at hp
    simpa [ParseUint] using hp

/-- `ParseInt` reads back exactly the `int64` that `FormatInt` wrote. -/
theorem parseInt_formatInt (n : Int) (hlo : -2 ^ 63 ≤ n) (hhi : n < 2 ^ 63) :
    ParseInt (FormatInt n) = (n, none) := by
  by_cases hneg : n < 0
  · have hu : (2 ^ 64 - (n % 2 ^ 64).toNat) % 2 ^ 64 = (-n).toNat := by omega
    obtain ⟨c, cs, hfmt, -, -, hp⟩ := parseUint_formatBits (-n).toNat (by omega)
    simp only [FormatInt, hneg, if_true, hu, hfmt, ParseInt]
    simp only [show ('-' : Char) ≠ '+' by decide, if_false, if_true, hp, decide_True]
    have h1 : ¬ (-n).toNat > 2 ^ 63 := by omega
    simp only [h1, and_false, if_false, Bool.true_eq_false, false_and]
    simp only [int64OfUint64, wrapInt64]
    split_ifs <;> first | omega | (congr 1; omega)
  · obtain ⟨c, cs, hfmt, hplus, hminus, hp⟩ := parseUint_formatBits n.toNat (by omega)
    have hu : (n % 2 ^ 64).toNat = n.toNat := by omega
    simp only [FormatInt, hneg, if_false, hu, hfmt, ParseInt]
    simp only [hplus, hminus, if_false, hp, decide_False]
    have h1 : ¬ n.toNat ≥ 2 ^ 63 := by omega
    simp only [h1, and_false, if_false, Bool.false_eq_true, false_and]
    simp only [int64OfUint64]
    split_ifs <;> first | omega | (congr 1; omega)

/-! ## Create, then Read -/

/-- C8: over a remote service whose get returns the record its create returned,
a successful `Create` followed by `Read` on the resulting state (a new
resource, so no conditional etag) parses the stored identifier back to the
`int64` id the service assigned, returns no diagnostics, and leaves
identifier, title and key as `Create` stored them; `etag` is that of the get
response. -/
theorem create_then_read_round_trip (ctxC ctxR : Ctx) (d : ResourceData) (client : Client)
    (record : SSHSigningKey) (resp getResp : Response) (n : Int)
    (hlo : -2 ^ 63 ≤ n) (hhi : n < 2 ^ 63)
    (hnew : d.isNew = true)
    (hcreate : client.CreateSSHSigningKey ctxC { Title := some d.title, Key := some d.key } =
      (some record, some resp, none))
    (hid : record.ID = some n)
    (hget : client.GetSSHSigningKey ctxR n = (some record, some getResp, none)) :
    ∃ d1 d2 : ResourceData,
      resourceGithubUserSshSigningKeyCreate ctxC d client =
        Outcome.returned d1 []
          [RemoteCall.create ctxC { Title := some d.title, Key := some d.key }] [] ∧
      ParseInt d1.id = (n, none) ∧
      resourceGithubUserSshSigningKeyRead ctxR d1 client =
        Outcome.returned d2 [] [RemoteCall.get ctxR n] [] ∧
      d2.id = d1.id ∧ d2.title = d1.title ∧ d2.key = d1.key ∧
      d2.etag = getResp.Header.Get "ETag" := by
  have hparse := parseInt_formatInt n hlo hhi
  refine ⟨_,
    { id := FormatInt n
      title := record.Title.getD ""
      key := record.Key.getD ""
      etag := getResp.Header.Get "ETag"
      isNew := d.isNew },
    create_of_success ctxC d client record resp n hcreate hid, hparse, ?_, rfl, rfl, rfl, rfl⟩
  rw [read_of_parse ctxR _ client n hparse]
  simp only [readCtx, hnew, Bool.true_eq_false, if_false, hget]
  obtain ⟨rid, rkey, rtitle⟩ := record
  cases rkey <;> cases rtitle <;> simp [setFields, ResourceData.Set, GetTitle, GetKey]

theorem create_then_read_round_trip_witness :
    (-2 ^ 63 ≤ (555 : Int) ∧ (555 : Int) < 2 ^ 63 ∧ laptopConfig.isNew = true) ∧
    ∃ d1 d2 : ResourceData,
      resourceGithubUserSshSigningKeyCreate background laptopConfig trimmingClient =
        Outcome.returned d1 []
          [RemoteCall.create background
            { Title := some laptopConfig.title, Key := some laptopConfig.key }] [] ∧
      ParseInt d1.id = (555, none) ∧
      resourceGithubUserSshSigningKeyRead background d1 trimmingClient =
        Outcome.returned d2 [] [RemoteCall.get background 555] [] ∧
      d2.id = d1.id ∧ d2.title = d1.title ∧ d2.key = d1.key ∧
      d2.etag = Header.Get [("Etag", ["etag-2"])] "ETag" :=
  ⟨by decide,
   create_then_read_round_trip background background laptopConfig trimmingClient
     { ID := some 555, Key := some "ssh-ed25519 AAAAC3", Title := some "laptop-2024" }
     { StatusCode := 201, Header := [("Etag", ["etag-1"])] }
     { StatusCode := 200, Header := [("Etag", ["etag-2"])] } 555
     (by decide) (by decide) rfl (by decide) rfl (by decide)⟩

/-- The end-to-end example of the specification, evaluated: the service
assigns id 555, the identifier becomes `"555"`, and the following `Read`
returns the same title and key with a fresh etag. -/
theorem end_to_end_example :
    resourceGithubUserSshSigningKeyCreate background laptopConfig trimmingClient =
      Outcome.returned
        { id := "555", title := "laptop-2024", key := "ssh-ed25519 AAAAC3", etag := "etag-1",
          isNew := true }
        [] [RemoteCall.create background
          { Title := some "laptop-2024", Key := some "ssh-ed25519 AAAAC3\n" }] [] ∧
    resourceGithubUserSshSigningKeyRead background
        { id := "555", title := "laptop-2024", key := "ssh-ed25519 AAAAC3", etag := "etag-1",
          isNew := true } trimmingClient =
      Outcome.returned
        { id := "555", title := "laptop-2024", key := "ssh-ed25519 AAAAC3", etag := "etag-2",
          isNew := true }
        [] [RemoteCall.get background 555] [] := by
  constructor <;> decide

end GithubUserSshSigningKey
